import Mathlib

/-!
Shallow embedding of scripts/sync_mirror.py, a batch job that mirrors open
pull requests from an upstream repository into a fork.

Pure computations (branch naming, body templating, label deltas, the diff
decision) are translated directly from the Python source.  Fallible external
calls (git fetch/push, gh pr create/edit/close, the draft mutations) are
abstracted by an `Oracle` that assigns a success flag to each call; the calls
a run issues, together with their outcomes, are recorded as a list of
`Effect`s.  Counters and control flow mirror the source line by line.
-/

namespace SyncMirror

/-- Constant UPSTREAM_REPO from the script. -/
def UPSTREAM_REPO : String := "facebook/react"

/-- An upstream PR record with the fields fetched by get_upstream_prs:
number, title, baseRefName, headRefName, headRefOid, body, author (login),
labels (names), isDraft.  The body may be null (absent), hence Option. -/
structure UpstreamPR where
  number : Nat
  title : String
  baseRefName : String
  headRefName : String
  headRefOid : String
  body : Option String
  author : String
  labels : List String
  isDraft : Bool
deriving DecidableEq

/-- A fork PR record with the fields fetched by get_fork_prs:
number, title, headRefName, headRefOid, body, labels (names), isDraft, id
(the platform node identifier used for the draft-conversion mutation). -/
structure ForkPR where
  number : Nat
  title : String
  headRefName : String
  headRefOid : String
  body : String
  labels : List String
  isDraft : Bool
  id : String
deriving DecidableEq

/-- The dictionary built by get_fork_prs, indexed by head branch name.
Modelled as an association list in iteration order; lookup is by key. -/
abbrev ForkDict := List (String × ForkPR)

/-- Count of PRs in all_prs sharing a head ref name, as computed inline in
get_branch_name: sum(1 for p in all_prs if p["headRefName"] == head_ref). -/
def head_count (all_prs : List UpstreamPR) (head_ref : String) : Nat :=
  all_prs.countP (fun p => p.headRefName == head_ref)

/-- get_branch_name: if more than one upstream PR shares this head ref name,
the branch name is "{head_ref}-{number}", else the head ref name itself. -/
def get_branch_name (pr : UpstreamPR) (all_prs : List UpstreamPR) : String :=
  if 1 < head_count all_prs pr.headRefName then
    pr.headRefName ++ "-" ++ toString pr.number
  else
    pr.headRefName

/-- build_pr_body: the mirror PR body template.  The f-string renders the
PR number in decimal twice (once in the link text, once in the link URL),
the author login with no mention sigil, and the upstream body verbatim
after the "---" separator. -/
def build_pr_body (pr_num : Nat) (author : String) (body : String) : String :=
  "**Mirror of [" ++ UPSTREAM_REPO ++ "#" ++ toString pr_num ++
    "](https://github.com/" ++ UPSTREAM_REPO ++ "/pull/" ++ toString pr_num ++
    ")**\n**Original author:** " ++ author ++ " \n\n---\n\n" ++ body

/-- The body text used by create_or_update_pr: pr.get("body") or "".
Python's `or` maps both None and the empty string to ""; Option.getD ""
agrees on both cases. -/
def pr_body_text (pr : UpstreamPR) : String := pr.body.getD ""

/-- The expected mirror body computed in create_or_update_pr. -/
def expected_body_of (pr : UpstreamPR) : String :=
  build_pr_body pr.number pr.author (pr_body_text pr)

/-- Labels to add, computed in sync_labels: upstream_set - fork_set. -/
def labels_to_add (upstream_labels fork_labels : List String) : Finset String :=
  upstream_labels.toFinset \ fork_labels.toFinset

/-- Labels to remove, computed in sync_labels: fork_set - upstream_set. -/
def labels_to_remove (upstream_labels fork_labels : List String) : Finset String :=
  fork_labels.toFinset \ upstream_labels.toFinset

/-- Per-PR result values of create_or_update_pr. -/
inductive Status where
  | created
  | updated
  | unchanged
  | failed
deriving DecidableEq

/-- External calls issued during a run, with their outcomes.  createBranch
is the git fetch/push pair that materialises a new mirror branch;
updateBranch is the force fetch/push pair; editMetadata is the gh pr edit
call carrying title and body; addLabels/removeLabels are the label-delta
edits (issued with check disabled, so they carry no outcome); markReady and
convertToDraft are the draft transitions; closePR is the sweep's close
(also issued with check disabled: its outcome never raises). -/
inductive Effect where
  | createBranch (prNum : Nat) (branch : String) (ok : Bool)
  | createPR (branch : String) (ok : Bool)
  | updateBranch (prNum : Nat) (branch : String) (ok : Bool)
  | editMetadata (forkPrNum : Nat) (title : String) (body : String) (ok : Bool)
  | addLabels (forkPrNum : Nat) (labels : Finset String)
  | removeLabels (forkPrNum : Nat) (labels : Finset String)
  | markReady (forkPrNum : Nat) (ok : Bool)
  | convertToDraft (nodeId : String) (ok : Bool)
  | closePR (forkPrNum : Nat) (ok : Bool)
deriving DecidableEq

/-- Success or failure of each fallible external call, indexed by the
argument that identifies the call in the source. -/
structure Oracle where
  baseOk : String → Bool
  createBranchOk : Nat → Bool
  createOk : Nat → Bool
  branchSyncOk : Nat → Bool
  editOk : Nat → Bool
  readyOk : Nat → Bool
  draftOk : String → Bool
  closeOk : Nat → Bool

/-- sync_labels: compute the two set differences and issue an add-label
edit and a remove-label edit, each only when its delta is nonempty.  Both
calls are made with check disabled, so they cannot fail the caller. -/
def sync_labels (fork_pr_num : Nat) (upstream_labels fork_labels : List String) :
    List Effect :=
  (if labels_to_add upstream_labels fork_labels ≠ ∅ then
    [Effect.addLabels fork_pr_num (labels_to_add upstream_labels fork_labels)]
  else []) ++
  (if labels_to_remove upstream_labels fork_labels ≠ ∅ then
    [Effect.removeLabels fork_pr_num (labels_to_remove upstream_labels fork_labels)]
  else [])

/-- update_pr_metadata: the gh pr edit of title and body is the only call
inside the try block that can raise; when it fails the function returns
False and the label sync and draft transition are skipped.  When it
succeeds, labels are synced and then the draft status is aligned
(convert to draft when upstream is draft and the fork is not; mark ready
in the opposite case). -/
def update_pr_metadata (ω : Oracle) (fork_pr_num : Nat) (title body : String)
    (upstream_labels fork_labels : List String) ( is_draft fork_is_draft : Bool)
    (pr_node_id : String) : Bool × List Effect :=
  if ω.editOk fork_pr_num then
    (true,
      Effect.editMetadata fork_pr_num title body true ::
        (sync_labels fork_pr_num upstream_labels fork_labels ++
          (if is_draft && !fork_is_draft then
            [Effect.convertToDraft pr_node_id (ω.draftOk pr_node_id)]
          else if !is_draft && fork_is_draft then
            [Effect.markReady fork_pr_num (ω.readyOk fork_pr_num)]
          else [])))
  else
    (false, [Effect.editMetadata fork_pr_num title body false])

/-- The metadata_changed condition of create_or_update_pr: title differs,
or the stored fork body differs from the expected templated body, or the
label sets differ, or the draft flags differ. -/
def metadata_changed (pr : UpstreamPR) (existing : ForkPR) : Bool :=
  (existing.title != pr.title) ||
  (existing.body != expected_body_of pr) ||
  !(decide (existing.labels.toFinset = pr.labels.toFinset)) ||
  (existing.isDraft != pr.isDraft)

/-- create_or_update_pr.  With an existing mirror PR: a differing head oid
triggers the branch force sync, whose failure returns "failed" at once
(skipping the metadata step); otherwise metadata is updated when changed
(its Boolean result is discarded, as in the source) and the result is
"updated" when either step was triggered, else "unchanged".  With no
existing mirror PR: ensure the base branch, materialise the branch, then
create the PR; each failure returns "failed". -/
def create_or_update_pr (ω : Oracle) (pr : UpstreamPR) (branch_name : String)
    (fork_prs : ForkDict) : Status × List Effect :=
  match fork_prs.lookup branch_name with
  | some existing =>
      let need_branch := existing.headRefOid != pr.headRefOid
      if need_branch && !(ω.branchSyncOk pr.number) then
        (Status.failed, [Effect.updateBranch pr.number branch_name false])
      else
        let branch_effects :=
          if need_branch then [Effect.updateBranch pr.number branch_name true] else []
        let meta_effects :=
          if metadata_changed pr existing then
            (update_pr_metadata ω existing.number pr.title (expected_body_of pr)
              pr.labels existing.labels pr.isDraft existing.isDraft existing.id).2
          else []
        if need_branch || metadata_changed pr existing then
          (Status.updated, branch_effects ++ meta_effects)
        else
          (Status.unchanged, [])
  | none =>
      if ω.baseOk pr.baseRefName then
        if ω.createBranchOk pr.number then
          if ω.createOk pr.number then
            (Status.created,
              [Effect.createBranch pr.number branch_name true,
                Effect.createPR branch_name true])
          else
            (Status.failed,
              [Effect.createBranch pr.number branch_name true,
                Effect.createPR branch_name false])
        else
          (Status.failed, [Effect.createBranch pr.number branch_name false])
      else
        (Status.failed, [])

/-- close_stale_prs: walk the fork dictionary in order and close every PR
whose branch name is not in the branch-name set of this run.  The close is
issued with check disabled, so the counter increments whether or not the
call succeeded; the oracle outcome is recorded in the effect only. -/
def close_stale_prs (ω : Oracle) (upstream_branches : Finset String)
    (fork_prs : ForkDict) : Nat × List Effect :=
  fork_prs.foldl
    (fun acc entry =>
      if entry.1 ∈ upstream_branches then acc
      else (acc.1 + 1, acc.2 ++ [Effect.closePR entry.2.number (ω.closeOk entry.2.number)]))
    (0, [])

/-- Loop state of sync_prs: the accumulating branch-name set and the four
counters, plus the recorded effects. -/
structure RunState where
  branches : Finset String
  created : Nat
  updated : Nat
  unchanged : Nat
  failed : Nat
  effects : List Effect
deriving DecidableEq

/-- One iteration of the sync_prs loop: compute the branch name against the
full (unsorted) upstream list, add it to the branch set, run
create_or_update_pr and bump whichever counter its result selects. -/
def sync_step (ω : Oracle) (all_prs : List UpstreamPR) (fork_prs : ForkDict)
    (st : RunState) (pr : UpstreamPR) : RunState :=
  let branch_name := get_branch_name pr all_prs
  let res := create_or_update_pr ω pr branch_name fork_prs
  { branches := insert branch_name st.branches
    created := st.created + (if res.1 = Status.created then 1 else 0)
    updated := st.updated + (if res.1 = Status.updated then 1 else 0)
    unchanged := st.unchanged + (if res.1 = Status.unchanged then 1 else 0)
    failed := st.failed + (if res.1 = Status.failed then 1 else 0)
    effects := st.effects ++ res.2 }

/-- Run summary printed by sync_prs, plus the effect trace. -/
structure Summary where
  created : Nat
  updated : Nat
  unchanged : Nat
  closed : Nat
  failed : Nat
  effects : List Effect
deriving DecidableEq

/-- sync_prs: sort the upstream PRs by ascending number (a stable sort, as
Python's sorted), process each, then sweep the fork PRs whose branch names
were not produced in this run. -/
def sync_prs (ω : Oracle) (upstream_prs : List UpstreamPR) (fork_prs : ForkDict) :
    Summary :=
  let upstream_prs_sorted :=
    upstream_prs.mergeSort (fun a b => decide (a.number ≤ b.number))
  let st := upstream_prs_sorted.foldl (sync_step ω upstream_prs fork_prs)
    ⟨∅, 0, 0, 0, 0, []⟩
  let sweep := close_stale_prs ω st.branches fork_prs
  ⟨st.created, st.updated, st.unchanged, sweep.1, st.failed, st.effects ++ sweep.2⟩

/-- The value returned by sync_prs (failed == 0); main exits with code 0
exactly when it is true. -/
def run_success (ω : Oracle) (upstream_prs : List UpstreamPR) (fork_prs : ForkDict) :
    Bool :=
  (sync_prs ω upstream_prs fork_prs).failed == 0

/-- The set of branch names computed from the upstream list alone, which
the sync_prs loop accumulates into upstream_branches. -/
def upstream_branch_set (upstream_prs : List UpstreamPR) : Finset String :=
  (upstream_prs.map (fun pr => get_branch_name pr upstream_prs)).toFinset

/-- Recogniser for close effects in a trace. -/
def is_close_effect : Effect → Bool
  | Effect.closePR _ _ => true
  | _ => false

/-! ### Concrete fixtures used by witnesses and counterexamples -/

/-- An oracle under which every external call succeeds. -/
def oracle_all_ok : Oracle :=
  ⟨fun _ => true, fun _ => true, fun _ => true, fun _ => true,
    fun _ => true, fun _ => true, fun _ => true, fun _ => true⟩

/-- An oracle under which only the title/body edit call fails. -/
def oracle_edit_fails : Oracle := { oracle_all_ok with editOk := fun _ => false }

/-- An oracle under which only the branch force sync fails. -/
def oracle_branch_sync_fails : Oracle :=
  { oracle_all_ok with branchSyncOk := fun _ => false }

/-- An oracle under which only the sweep's close call fails. -/
def oracle_close_fails : Oracle := { oracle_all_ok with closeOk := fun _ => false }

/-- Upstream PR 42, head branch feature-x (spec scenario 2). -/
def exPR42 : UpstreamPR :=
  ⟨42, "Add feature X", "main", "feature-x", "aaa111", some "Body 42", "alice",
    ["bug"], false⟩

/-- Upstream PR 43, head branch feature-x as well (spec scenario 2). -/
def exPR43 : UpstreamPR :=
  ⟨43, "Add feature X again", "main", "feature-x", "bbb222", none, "bob", [], true⟩

/-- Counterexample PR whose unique head branch name is literally a-2. -/
def c2a : UpstreamPR := ⟨1, "P1", "main", "a-2", "s1", none, "x", [], false⟩

/-- Counterexample PR number 2 with duplicated head branch name a. -/
def c2b : UpstreamPR := ⟨2, "P2", "main", "a", "s2", none, "y", [], false⟩

/-- Counterexample PR number 3 with duplicated head branch name a. -/
def c2c : UpstreamPR := ⟨3, "P3", "main", "a", "s3", none, "z", [], false⟩

/-- A single upstream PR for the idempotence witness. -/
def c1pr : UpstreamPR :=
  ⟨1, "Title", "main", "feat", "sha1", some "Hello", "alice", ["bug", "ui"], false⟩

/-- Its fully synchronised mirror (labels stored in another order). -/
def c1fork : ForkPR :=
  ⟨11, "Title", "feat", "sha1", expected_body_of c1pr, ["ui", "bug"], false, "node11"⟩

/-- Upstream PR whose title changed while the branch tip did not. -/
def c6pr : UpstreamPR :=
  ⟨7, "New title", "main", "feat7", "sha7", some "B", "carol", [], false⟩

/-- Its mirror, still carrying the old title. -/
def c6fork : ForkPR := ⟨5, "Old title", "feat7", "sha7", "old body", [], false, "node5"⟩

/-- Upstream PR where both the branch tip and the metadata changed. -/
def c9pr : UpstreamPR :=
  ⟨9, "T9", "main", "feat9", "newsha", some "B9", "dave", [], false⟩

/-- Its mirror with a stale tip, stale title and stale draft flag. -/
def c9fork : ForkPR := ⟨4, "Old", "feat9", "oldsha", "old", [], true, "node4"⟩

/-- A fork PR whose upstream counterpart disappeared. -/
def c5fork : ForkPR := ⟨21, "Stale", "gone-branch", "s", "b", [], false, "node21"⟩

/-- An upstream PR with a null body. -/
def c10pr : UpstreamPR := ⟨3, "T", "main", "f3", "s3", none, "eve", [], false⟩

/-- A mirror of c6pr agreeing on title, labels and draft flag but storing a
raw (untemplated) body. -/
def c8fork : ForkPR := ⟨5, "New title", "feat7", "sha7", "B", [], false, "node5"⟩

/-! ### Claims -/

/-- C3: for every upstream PR list and every PR in it, if more than one PR in
the list has the same head branch name then the assigned branch name is the
head branch name, a dash, and the PR's own number; if the head branch name
occurs exactly once, the assigned name is the head branch name unchanged. -/
theorem C3_branch_disambiguation (all_prs : List UpstreamPR) (pr : UpstreamPR)
    (hmem : pr ∈ all_prs) :
    (1 < head_count all_prs pr.headRefName →
      get_branch_name pr all_prs = pr.headRefName ++ "-" ++ toString pr.number) ∧
    (head_count all_prs pr.headRefName = 1 →
      get_branch_name pr all_prs = pr.headRefName) := by
  constructor
  · intro h
    simp [get_branch_name, h]
  · intro h
    simp [get_branch_name, h]

/-- Witness for C3 on spec scenario 2: PRs 42 and 43 share head feature-x,
so PR 42 is assigned feature-x-42. -/
theorem C3_branch_disambiguation_witness :
    get_branch_name exPR42 [exPR42, exPR43] =
      exPR42.headRefName ++ "-" ++ toString exPR42.number :=
  (C3_branch_disambiguation [exPR42, exPR43] exPR42 (by simp)).1 (by decide)

/-- C7: the computed label additions are the upstream set minus the fork set,
the removals are the fork set minus the upstream set, and removing the
removals from the fork set and then adding the additions yields exactly the
upstream set. -/
theorem C7_label_delta (u f : List String) :
    labels_to_add u f = u.toFinset \ f.toFinset ∧
    labels_to_remove u f = f.toFinset \ u.toFinset ∧
    (f.toFinset \ labels_to_remove u f) ∪ labels_to_add u f = u.toFinset := by
  refine ⟨rfl, rfl, ?_⟩
  rw [labels_to_remove, labels_to_add, Finset.sdiff_sdiff_self_left]
  ext x
  simp only [Finset.mem_union, Finset.mem_inter, Finset.mem_sdiff]
  tauto


/-- C8: the expected mirror body is a pure function of number, author and
body that equals the fixed template embedding the number, the upstream PR
link built from the number, the author with no mention sigil, and the body
verbatim below the separator; and the diff decision compares the stored fork
body for equality against this expected body (not against the raw body):
when title, labels and draft flag agree, the metadata is unchanged exactly
when the stored body equals the expected body. -/
theorem C8_expected_body_template (n : Nat) (a b : String) (pr : UpstreamPR)
    (existing : ForkPR)
    (ht : existing.title = pr.title)
    (hl : existing.labels.toFinset = pr.labels.toFinset)
    (hd : existing.isDraft = pr.isDraft) :
    build_pr_body n a b =
      "**Mirror of [facebook/react#" ++ toString n ++
        "](https://github.com/facebook/react/pull/" ++ toString n ++
        ")**\n**Original author:** " ++ a ++ " \n\n---\n\n" ++ b ∧
    (metadata_changed pr existing = false ↔ existing.body = expected_body_of pr) := by
  constructor
  · apply String.ext
    simp only [build_pr_body, UPSTREAM_REPO, String.data_append, List.append_assoc]
    simp only [List.cons_append, List.nil_append]
  · simp [metadata_changed, ht, hl, hd, bne]

/-- Witness for C8 at number 42, author alice, body Body 42, with a mirror
record agreeing on title, labels and draft flag but storing a raw body. -/
theorem C8_expected_body_template_witness :
    build_pr_body 42 "alice" "Body 42" =
      "**Mirror of [facebook/react#" ++ toString 42 ++
        "](https://github.com/facebook/react/pull/" ++ toString 42 ++
        ")**\n**Original author:** " ++ "alice" ++ " \n\n---\n\n" ++ "Body 42" ∧
    (metadata_changed c6pr c8fork = false ↔ c8fork.body = expected_body_of c6pr) :=
  C8_expected_body_template 42 "alice" "Body 42" c6pr c8fork (by decide) (by decide)
    (by decide)

/-- C10: an upstream PR whose body is null is processed exactly as if its
body were the empty string, and its expected mirror body is the template
applied to the empty string, i.e. the wrapper ending in the separator
followed by nothing. -/
theorem C10_null_body (ω : Oracle) (pr : UpstreamPR) (branch_name : String)
    (fork_prs : ForkDict) (h : pr.body = none) :
    create_or_update_pr ω pr branch_name fork_prs =
      create_or_update_pr ω { pr with body := some "" } branch_name fork_prs ∧
    expected_body_of pr = build_pr_body pr.number pr.author "" := by
  obtain ⟨num, title, base, head, oid, body, author, labels, draft⟩ := pr
  simp only [UpstreamPR.body] at h
  subst h
  exact ⟨rfl, rfl⟩

/-- Witness for C10: the null-bodied PR c10pr with an empty fork state. -/
theorem C10_null_body_witness :
    create_or_update_pr oracle_all_ok c10pr "f3" [] =
      create_or_update_pr oracle_all_ok { c10pr with body := some "" } "f3" [] ∧
    expected_body_of c10pr = build_pr_body c10pr.number c10pr.author "" :=
  C10_null_body oracle_all_ok c10pr "f3" [] (by decide)

/-- C6 as stated is false on the code: with the title differing, the branch
tip equal, and the title/body edit call failing, create_or_update_pr still
returns updated (the Boolean result of update_pr_metadata is discarded), the
trace records the failed edit, and the run tallies zero failures. -/
theorem C6_counterexample :
    metadata_changed c6pr c6fork = true ∧
    c6fork.headRefOid = c6pr.headRefOid ∧
    (create_or_update_pr oracle_edit_fails c6pr "feat7" [("feat7", c6fork)]).1 =
      Status.updated ∧
    (create_or_update_pr oracle_edit_fails c6pr "feat7" [("feat7", c6fork)]).2 =
      [Effect.editMetadata 5 "New title" (expected_body_of c6pr) false] ∧
    (sync_prs oracle_edit_fails [c6pr] [("feat7", c6fork)]).failed = 0 ∧
    (sync_prs oracle_edit_fails [c6pr] [("feat7", c6fork)]).updated = 1 := by
  have hs : sync_prs oracle_edit_fails [c6pr] [("feat7", c6fork)] =
      ⟨0, 1, 0, 0, 0,
        [Effect.editMetadata 5 "New title" (expected_body_of c6pr) false]⟩ := by
    simp only [sync_prs, List.mergeSort_singleton]
    decide
  rw [hs]
  refine ⟨by decide, by decide, by decide, by decide, rfl, rfl⟩

/-- C6 amended: for every upstream PR with an existing mirror PR whose
metadata differs and whose branch tip does not, the PR is counted as
updated whatever the outcome of the metadata edit — the failure of the
title/body edit call is not propagated into the failed counter. -/
theorem C6_metadata_failure_still_updated (ω : Oracle) (pr : UpstreamPR)
    (branch_name : String) (fork_prs : ForkDict) (existing : ForkPR)
    (hlook : fork_prs.lookup branch_name = some existing)
    (hsha : existing.headRefOid = pr.headRefOid)
    (hmeta : metadata_changed pr existing = true) :
    create_or_update_pr ω pr branch_name fork_prs =
      (Status.updated,
        (update_pr_metadata ω existing.number pr.title (expected_body_of pr)
          pr.labels existing.labels pr.isDraft existing.isDraft existing.id).2) := by
  simp [create_or_update_pr, hlook, hsha, hmeta]

/-- Witness for the amended C6 with the edit call failing. -/
theorem C6_metadata_failure_still_updated_witness :
    create_or_update_pr oracle_edit_fails c6pr "feat7" [("feat7", c6fork)] =
      (Status.updated,
        (update_pr_metadata oracle_edit_fails c6fork.number c6pr.title
          (expected_body_of c6pr) c6pr.labels c6fork.labels c6pr.isDraft
          c6fork.isDraft c6fork.id).2) :=
  C6_metadata_failure_still_updated oracle_edit_fails c6pr "feat7"
    [("feat7", c6fork)] c6fork (by decide) (by decide) (by decide)

/-- C9 as stated is false on the code: with both the branch tip and the
metadata differing, a failed branch update returns failed immediately and
the metadata update is never attempted — its trace is exactly the failed
branch sync, with no metadata effect. -/
theorem C9_counterexample :
    c9fork.headRefOid ≠ c9pr.headRefOid ∧
    metadata_changed c9pr c9fork = true ∧
    create_or_update_pr oracle_branch_sync_fails c9pr "feat9" [("feat9", c9fork)] =
      (Status.failed, [Effect.updateBranch 9 "feat9" false]) := by
  decide

/-- C9 amended: when both the branch tip and the metadata differ, both
updates execute provided the branch update succeeds; when the branch update
fails, processing stops with failed and the metadata update is not
attempted. -/
theorem C9_both_updates_when_branch_succeeds (ω : Oracle) (pr : UpstreamPR)
    (branch_name : String) (fork_prs : ForkDict) (existing : ForkPR)
    (hlook : fork_prs.lookup branch_name = some existing)
    (hsha : existing.headRefOid ≠ pr.headRefOid)
    (hmeta : metadata_changed pr existing = true) :
    (ω.branchSyncOk pr.number = true →
      create_or_update_pr ω pr branch_name fork_prs =
        (Status.updated,
          Effect.updateBranch pr.number branch_name true ::
            (update_pr_metadata ω existing.number pr.title (expected_body_of pr)
              pr.labels existing.labels pr.isDraft existing.isDraft existing.id).2)) ∧
    (ω.branchSyncOk pr.number = false →
      create_or_update_pr ω pr branch_name fork_prs =
        (Status.failed, [Effect.updateBranch pr.number branch_name false])) := by
  have hb : (existing.headRefOid != pr.headRefOid) = true := by
    simpa using hsha
  constructor
  · intro h
    simp [create_or_update_pr, hlook, hb, hmeta, h]
  · intro h
    simp [create_or_update_pr, hlook, hb, hmeta, h]

/-- Witness for the amended C9: with a succeeding branch sync both the
branch update and the metadata update appear in the trace. -/
theorem C9_both_updates_when_branch_succeeds_witness :
    create_or_update_pr oracle_all_ok c9pr "feat9" [("feat9", c9fork)] =
      (Status.updated,
        Effect.updateBranch c9pr.number "feat9" true ::
          (update_pr_metadata oracle_all_ok c9fork.number c9pr.title
            (expected_body_of c9pr) c9pr.labels c9fork.labels c9pr.isDraft
            c9fork.isDraft c9fork.id).2) :=
  (C9_both_updates_when_branch_succeeds oracle_all_ok c9pr "feat9"
    [("feat9", c9fork)] c9fork (by decide) (by decide) (by decide)).1 (by decide)

/-- The sweep closes exactly the fork entries whose key is outside the
branch-name set, in dictionary order, counting every one of them whatever
the outcome of its close call. -/
theorem close_stale_prs_eq (ω : Oracle) (B : Finset String) (f : ForkDict) :
    close_stale_prs ω B f =
      ((f.filter (fun e => !decide (e.1 ∈ B))).length,
        (f.filter (fun e => !decide (e.1 ∈ B))).map
          (fun e => Effect.closePR e.2.number (ω.closeOk e.2.number))) := by
  have key : ∀ (l : ForkDict) (n : Nat) (es : List Effect),
      (l.foldl
        (fun acc entry =>
          if entry.1 ∈ B then acc
          else (acc.1 + 1,
            acc.2 ++ [Effect.closePR entry.2.number (ω.closeOk entry.2.number)]))
        (n, es)) =
      (n + (l.filter (fun e => !decide (e.1 ∈ B))).length,
        es ++ (l.filter (fun e => !decide (e.1 ∈ B))).map
          (fun e => Effect.closePR e.2.number (ω.closeOk e.2.number))) := by
    intro l
    induction l with
    | nil => intro n es; simp
    | cons e t ih =>
      intro n es
      by_cases he : e.1 ∈ B
      · simpa [he] using ih n es
      · have hstep := ih (n + 1) (es ++ [Effect.closePR e.2.number (ω.closeOk e.2.number)])
        simp only [List.foldl_cons, if_neg he]
        rw [hstep]
        have hfil : List.filter (fun x => !decide (x.1 ∈ B)) (e :: t) =
            e :: List.filter (fun x => !decide (x.1 ∈ B)) t := by
          simp [List.filter_cons, he]
        rw [hfil]
        simp only [List.length_cons, List.map_cons, Prod.mk.injEq]
        constructor
        · omega
        · simp [List.append_assoc]
  simpa [close_stale_prs] using key f 0 []

/-- The counter returned by the sweep does not depend on the oracle. -/
theorem close_stale_prs_fst (ω ω' : Oracle) (B : Finset String) (f : ForkDict) :
    (close_stale_prs ω B f).1 = (close_stale_prs ω' B f).1 := by
  simp [close_stale_prs_eq]

/-- C5 as stated is false on the code: with an empty upstream list and one
stale fork PR whose close call fails, the trace records the failed close,
yet the failed counter is zero and the run reports success. -/
theorem C5_counterexample :
    (sync_prs oracle_close_fails [] [("gone-branch", c5fork)]).effects =
      [Effect.closePR 21 false] ∧
    (sync_prs oracle_close_fails [] [("gone-branch", c5fork)]).failed = 0 ∧
    (sync_prs oracle_close_fails [] [("gone-branch", c5fork)]).closed = 1 ∧
    run_success oracle_close_fails [] [("gone-branch", c5fork)] = true := by
  have hs : sync_prs oracle_close_fails [] [("gone-branch", c5fork)] =
      ⟨0, 0, 0, 1, 0, [Effect.closePR 21 false]⟩ := by
    simp only [sync_prs, List.mergeSort_nil]
    decide
  have hr : run_success oracle_close_fails [] [("gone-branch", c5fork)] = true := by
    rw [run_success, hs]
    rfl
  rw [hs]
  exact ⟨rfl, rfl, rfl, hr⟩

/-- C5 amended: failures of the sweep's close calls are not counted toward
the failed tally — the failed and closed counters and the overall success
flag are the same under any close-call outcomes, success depending only on
the per-PR loop. -/
theorem C5_sweep_failures_uncounted (ω : Oracle) (c : Nat → Bool)
    (u : List UpstreamPR) (f : ForkDict) :
    (sync_prs { ω with closeOk := c } u f).failed = (sync_prs ω u f).failed ∧
    (sync_prs { ω with closeOk := c } u f).closed = (sync_prs ω u f).closed ∧
    run_success { ω with closeOk := c } u f = run_success ω u f := by
  refine ⟨rfl, ?_, rfl⟩
  exact close_stale_prs_fst { ω with closeOk := c } ω _ f

/-- update_pr_metadata never issues a close call. -/
theorem update_pr_metadata_no_close (ω : Oracle) (fork_pr_num : Nat)
    (title body : String) (upstream_labels fork_labels : List String)
    ( is_draft fork_is_draft : Bool) (pr_node_id : String) :
    ((update_pr_metadata ω fork_pr_num title body upstream_labels fork_labels
      is_draft fork_is_draft pr_node_id).2).filter is_close_effect = [] := by
  unfold update_pr_metadata sync_labels
  split_ifs <;> simp [is_close_effect]

/-- create_or_update_pr never issues a close call. -/
theorem create_or_update_pr_no_close (ω : Oracle) (pr : UpstreamPR)
    (branch_name : String) (fork_prs : ForkDict) :
    ((create_or_update_pr ω pr branch_name fork_prs).2).filter is_close_effect = [] := by
  rcases h : fork_prs.lookup branch_name with _ | existing <;>
    simp only [create_or_update_pr, h] <;>
    split_ifs <;>
    simp [is_close_effect, List.filter_append, update_pr_metadata_no_close]

/-- The branch-name set accumulated by the loop is the initial set united
with the branch names of the processed PRs, whatever each PR's outcome. -/
theorem sync_loop_branches (ω : Oracle) (all_prs : List UpstreamPR)
    (fork_prs : ForkDict) :
    ∀ (l : List UpstreamPR) (st : RunState),
      (l.foldl (sync_step ω all_prs fork_prs) st).branches =
        st.branches ∪ (l.map (fun pr => get_branch_name pr all_prs)).toFinset := by
  intro l
  induction l with
  | nil => intro st; simp
  | cons pr t ih =>
    intro st
    rw [List.foldl_cons, ih]
    show insert (get_branch_name pr all_prs) st.branches ∪ _ = _
    rw [List.map_cons, List.toFinset_cons]
    ext x
    simp only [Finset.mem_union, Finset.mem_insert]
    tauto

/-- The loop contributes no close effects to the trace. -/
theorem sync_loop_effects_no_close (ω : Oracle) (all_prs : List UpstreamPR)
    (fork_prs : ForkDict) :
    ∀ (l : List UpstreamPR) (st : RunState),
      ((l.foldl (sync_step ω all_prs fork_prs) st).effects).filter is_close_effect =
        st.effects.filter is_close_effect := by
  intro l
  induction l with
  | nil => intro st; rfl
  | cons pr t ih =>
    intro st
    rw [List.foldl_cons, ih]
    show (st.effects ++ (create_or_update_pr ω pr _ fork_prs).2).filter
        is_close_effect = _
    rw [List.filter_append, create_or_update_pr_no_close, List.append_nil]

/-- C4: the close calls of a run are exactly the fork entries whose branch
name is outside the branch-name set computed from the upstream list alone;
membership in that set is independent of the per-PR outcomes (the right-hand
side mentions the oracle only through the close calls themselves). -/
theorem C4_stale_detection (ω : Oracle) (u : List UpstreamPR) (f : ForkDict) :
    ((sync_prs ω u f).effects).filter is_close_effect =
      (f.filter (fun e => !decide (e.1 ∈ upstream_branch_set u))).map
        (fun e => Effect.closePR e.2.number (ω.closeOk e.2.number)) := by
  have hbr : ((u.mergeSort (fun a b => decide (a.number ≤ b.number))).foldl
      (sync_step ω u f) ⟨∅, 0, 0, 0, 0, []⟩).branches = upstream_branch_set u := by
    rw [sync_loop_branches]
    show ∅ ∪ _ = _
    rw [Finset.empty_union]
    exact List.toFinset_eq_of_perm _ _
      ((List.mergeSort_perm u (fun a b => decide (a.number ≤ b.number))).map
        (fun pr => get_branch_name pr u))
  have hall : List.filter is_close_effect
      ((f.filter (fun e => !decide (e.1 ∈ upstream_branch_set u))).map
        (fun e => Effect.closePR e.2.number (ω.closeOk e.2.number))) =
      (f.filter (fun e => !decide (e.1 ∈ upstream_branch_set u))).map
        (fun e => Effect.closePR e.2.number (ω.closeOk e.2.number)) := by
    rw [List.filter_eq_self]
    intro a ha
    obtain ⟨e, he, rfl⟩ := List.mem_map.mp ha
    rfl
  simp only [sync_prs]
  rw [List.filter_append, sync_loop_effects_no_close, hbr, close_stale_prs_eq]
  simpa using hall

/-- When every processed PR comes out unchanged with no effects, the loop
only collects branch names and counts the PRs as unchanged. -/
theorem sync_loop_all_unchanged (ω : Oracle) (all_prs : List UpstreamPR)
    (fork_prs : ForkDict) :
    ∀ (l : List UpstreamPR) (st : RunState),
      (∀ pr ∈ l, create_or_update_pr ω pr (get_branch_name pr all_prs) fork_prs =
        (Status.unchanged, [])) →
      l.foldl (sync_step ω all_prs fork_prs) st =
        { st with
            branches :=
              st.branches ∪ (l.map (fun pr => get_branch_name pr all_prs)).toFinset
            unchanged := st.unchanged + l.length } := by
  intro l
  induction l with
  | nil =>
    intro st _
    cases st
    simp
  | cons pr t ih =>
    intro st h
    have hpr := h pr (List.mem_cons_self pr t)
    have hrest : ∀ q ∈ t,
        create_or_update_pr ω q (get_branch_name q all_prs) fork_prs =
          (Status.unchanged, []) :=
      fun q hq => h q (List.mem_cons_of_mem pr hq)
    rw [List.foldl_cons]
    have hstep : sync_step ω all_prs fork_prs st pr =
        { st with
            branches := insert (get_branch_name pr all_prs) st.branches
            unchanged := st.unchanged + 1 } := by
      simp [sync_step, hpr]
    rw [hstep, ih _ hrest]
    cases st
    simp only [RunState.mk.injEq, List.map_cons, List.toFinset_cons, List.length_cons,
      and_true, true_and]
    refine ⟨?_, ?_⟩
    · ext x
      simp only [Finset.mem_union, Finset.mem_insert]
      tauto
    · omega

/-- C1: when the fork state already matches upstream — for each upstream PR
the mirror stored under its computed branch name has the same head commit,
the same title, the expected templated body, an equal label set, and the
same draft flag, and every fork entry's branch name is in the computed
branch-name set — a run creates nothing, updates nothing and closes
nothing: every PR is counted unchanged, all other counters are zero, and no
external write is issued at all. -/
theorem C1_idempotence (ω : Oracle) (u : List UpstreamPR) (f : ForkDict)
    (h1 : ∀ pr ∈ u, ∃ m : ForkPR,
      f.lookup (get_branch_name pr u) = some m ∧
      m.headRefOid = pr.headRefOid ∧
      m.title = pr.title ∧
      m.body = expected_body_of pr ∧
      m.labels.toFinset = pr.labels.toFinset ∧
      m.isDraft = pr.isDraft)
    (h2 : ∀ e ∈ f, e.1 ∈ upstream_branch_set u) :
    sync_prs ω u f = ⟨0, 0, u.length, 0, 0, []⟩ := by
  have hper : ∀ pr ∈ u.mergeSort (fun a b => decide (a.number ≤ b.number)),
      create_or_update_pr ω pr (get_branch_name pr u) f =
        (Status.unchanged, []) := by
    intro pr hpr
    obtain ⟨m, hlook, hsha, hti, hbo, hla, hdr⟩ := h1 pr (List.mem_mergeSort.mp hpr)
    simp [create_or_update_pr, hlook, hsha, metadata_changed, hti, hbo, hla, hdr]
  have hloop := sync_loop_all_unchanged ω u f
    (u.mergeSort (fun a b => decide (a.number ≤ b.number))) ⟨∅, 0, 0, 0, 0, []⟩ hper
  have hbr : (∅ : Finset String) ∪
      ((u.mergeSort (fun a b => decide (a.number ≤ b.number))).map
        (fun pr => get_branch_name pr u)).toFinset = upstream_branch_set u := by
    rw [Finset.empty_union]
    exact List.toFinset_eq_of_perm _ _
      ((List.mergeSort_perm u (fun a b => decide (a.number ≤ b.number))).map
        (fun pr => get_branch_name pr u))
  have hsweep : close_stale_prs ω (upstream_branch_set u) f = (0, []) := by
    rw [close_stale_prs_eq]
    have hnil : f.filter (fun e => !decide (e.1 ∈ upstream_branch_set u)) = [] := by
      rw [List.filter_eq_nil_iff]
      intro e he
      simp [h2 e he]
    rw [hnil]
    rfl
  simp only [sync_prs]
  rw [hloop]
  simp only [hbr]
  rw [hsweep]
  simp [List.length_mergeSort]

/-- Witness for C1: one upstream PR whose mirror already matches (labels
stored in a different order), run under the all-succeeding oracle. -/
theorem C1_idempotence_witness :
    sync_prs oracle_all_ok [c1pr] [("feat", c1fork)] = ⟨0, 0, 1, 0, 0, []⟩ :=
  C1_idempotence oracle_all_ok [c1pr] [("feat", c1fork)]
    (by
      intro pr hpr
      simp only [List.mem_singleton] at hpr
      subst hpr
      exact ⟨c1fork, by decide, by decide, by decide, by decide, by decide, by decide⟩)
    (by
      intro e he
      simp only [List.mem_singleton] at he
      subst he
      decide)

/-- Two distinct members force a list length of at least two. -/
theorem one_lt_length_of_mem_ne {α : Type} {l : List α} {a b : α}
    (ha : a ∈ l) (hb : b ∈ l) (hab : a ≠ b) : 1 < l.length := by
  match l with
  | [] => cases ha
  | [x] =>
    simp only [List.mem_singleton] at ha hb
    exact absurd (ha.trans hb.symm) hab
  | x :: y :: t =>
    simp only [List.length_cons]
    omega

/-- Two distinct members satisfying a predicate force its count above one. -/
theorem one_lt_countP_of_mem_ne {α : Type} {l : List α} {a b : α} (p : α → Bool)
    (ha : a ∈ l) (hb : b ∈ l) (hab : a ≠ b) (hpa : p a = true) (hpb : p b = true) :
    1 < l.countP p := by
  rw [List.countP_eq_length_filter]
  exact one_lt_length_of_mem_ne (List.mem_filter.mpr ⟨ha, hpa⟩)
    (List.mem_filter.mpr ⟨hb, hpb⟩) hab

/-- Digit characters are never the dash. -/
theorem digitChar_ne_dash {m : Nat} (h : m < 10) : Nat.digitChar m ≠ '-' := by
  interval_cases m <;> decide

/-- The numeric value of a decimal digit character. -/
def charVal (c : Char) : Nat := c.toNat - 48

/-- The value of a decimal digit string, most significant digit first. -/
def valD (l : List Char) : Nat := l.foldl (fun a c => 10 * a + charVal c) 0

/-- charVal inverts digitChar on digits below ten. -/
theorem charVal_digitChar {m : Nat} (h : m < 10) : charVal (Nat.digitChar m) = m := by
  interval_cases m <;> decide

/-- valD of a string extended by one digit on the right. -/
theorem valD_concat (l : List Char) (c : Char) :
    valD (l ++ [c]) = 10 * valD l + charVal c := by
  unfold valD
  rw [List.foldl_concat]

/-- toDigitsCore prepends its output to the accumulator. -/
theorem toDigitsCore_acc_eq (b : Nat) :
    ∀ (f n : Nat) (acc : List Char),
      Nat.toDigitsCore b f n acc = Nat.toDigitsCore b f n [] ++ acc := by
  intro f
  induction f with
  | zero =>
    intro n acc
    simp [Nat.toDigitsCore]
  | succ f ih =>
    intro n acc
    simp only [Nat.toDigitsCore]
    by_cases h : n / b = 0
    · simp [h]
    · rw [if_neg h, if_neg h, ih (n / b) (Nat.digitChar (n % b) :: acc),
        ih (n / b) [Nat.digitChar (n % b)], List.append_assoc]
      rfl

/-- In base ten, toDigitsCore emits no dash beyond those of the accumulator. -/
theorem toDigitsCore_ten_no_dash :
    ∀ (f n : Nat) (acc : List Char), (∀ c ∈ acc, c ≠ '-') →
      ∀ c ∈ Nat.toDigitsCore 10 f n acc, c ≠ '-' := by
  intro f
  induction f with
  | zero =>
    intro n acc hacc
    simpa [Nat.toDigitsCore] using hacc
  | succ f ih =>
    intro n acc hacc
    simp only [Nat.toDigitsCore]
    by_cases h : n / 10 = 0
    · rw [if_pos h]
      intro c hc
      rcases List.mem_cons.mp hc with rfl | hc
      · exact digitChar_ne_dash (Nat.mod_lt n (by decide))
      · exact hacc c hc
    · rw [if_neg h]
      apply ih
      intro c hc
      rcases List.mem_cons.mp hc with rfl | hc
      · exact digitChar_ne_dash (Nat.mod_lt n (by decide))
      · exact hacc c hc

/-- No character of the decimal representation of a natural is a dash. -/
theorem repr_no_dash (n : Nat) : ∀ c ∈ (Nat.repr n).data, c ≠ '-' := by
  have hrepr : (Nat.repr n).data = Nat.toDigitsCore 10 (n + 1) n [] := rfl
  rw [hrepr]
  exact toDigitsCore_ten_no_dash (n + 1) n [] (by simp)

/-- valD recovers the number from its digit string. -/
theorem valD_toDigitsCore :
    ∀ (n f : Nat), n < f → valD (Nat.toDigitsCore 10 f n []) = n := by
  intro n
  induction n using Nat.strong_induction_on with
  | _ n ih =>
    intro f hf
    cases f with
    | zero => exact absurd hf (Nat.not_lt_zero n)
    | succ f =>
      simp only [Nat.toDigitsCore]
      by_cases h : n / 10 = 0
      · rw [if_pos h]
        have hmod : n % 10 = n := by omega
        rw [hmod]
        have hn : n < 10 := by omega
        simp [valD, charVal_digitChar hn]
      · rw [if_neg h, toDigitsCore_acc_eq, valD_concat]
        have h1 : n / 10 < n := by omega
        have h2 : n / 10 < f := by omega
        rw [ih (n / 10) h1 f h2, charVal_digitChar (show n % 10 < 10 by omega)]
        omega

/-- The decimal representation is injective. -/
theorem nat_repr_injective {m n : Nat} (h : Nat.repr m = Nat.repr n) : m = n := by
  have hm : (Nat.repr m).data = Nat.toDigitsCore 10 (m + 1) m [] := rfl
  have hn : (Nat.repr n).data = Nat.toDigitsCore 10 (n + 1) n [] := rfl
  have hd : Nat.toDigitsCore 10 (m + 1) m [] = Nat.toDigitsCore 10 (n + 1) n [] := by
    rw [← hm, ← hn, h]
  have hv := congrArg valD hd
  rwa [valD_toDigitsCore m (m + 1) (Nat.lt_succ_self m),
    valD_toDigitsCore n (n + 1) (Nat.lt_succ_self n)] at hv

/-- A word of dash-free letters followed by a dash determines the split. -/
theorem dash_split :
    ∀ (a1 a2 r1 r2 : List Char), (∀ c ∈ a1, c ≠ '-') → (∀ c ∈ a2, c ≠ '-') →
      a1 ++ '-' :: r1 = a2 ++ '-' :: r2 → a1 = a2 ∧ r1 = r2 := by
  intro a1
  induction a1 with
  | nil =>
    intro a2 r1 r2 _ h2 heq
    cases a2 with
    | nil => simpa using heq
    | cons x t =>
      simp only [List.nil_append, List.cons_append, List.cons.injEq] at heq
      exact absurd heq.1.symm (h2 x (List.mem_cons_self x t))
  | cons x t ih =>
    intro a2 r1 r2 h1 h2 heq
    cases a2 with
    | nil =>
      simp only [List.cons_append, List.nil_append, List.cons.injEq] at heq
      exact absurd heq.1 (h1 x (List.mem_cons_self x t))
    | cons y s =>
      simp only [List.cons_append, List.cons.injEq] at heq
      obtain ⟨rfl, heq2⟩ := heq
      obtain ⟨h3, h4⟩ := ih s r1 r2 (fun c hc => h1 c (List.mem_cons_of_mem _ hc))
        (fun c hc => h2 c (List.mem_cons_of_mem _ hc)) heq2
      exact ⟨by rw [h3], h4⟩

/-- Disambiguated branch names are injective in the pair of head name and
number: the decimal suffix is dash-free, so the final dash is unambiguous. -/
theorem tagged_name_inj {h1 h2 : String} {n1 n2 : Nat}
    (he : h1 ++ "-" ++ toString n1 = h2 ++ "-" ++ toString n2) :
    h1 = h2 ∧ n1 = n2 := by
  have ht1 : toString n1 = Nat.repr n1 := rfl
  have ht2 : toString n2 = Nat.repr n2 := rfl
  rw [ht1, ht2] at he
  have hd : h1.data ++ '-' :: (Nat.repr n1).data =
      h2.data ++ '-' :: (Nat.repr n2).data := by
    have hdata := congrArg String.data he
    simpa [String.data_append] using hdata
  have hrev := congrArg List.reverse hd
  simp only [List.reverse_append, List.reverse_cons, List.append_assoc,
    List.singleton_append] at hrev
  obtain ⟨hs, hh⟩ := dash_split _ _ _ _
    (fun c hc => repr_no_dash n1 c (List.mem_reverse.mp hc))
    (fun c hc => repr_no_dash n2 c (List.mem_reverse.mp hc)) hrev
  refine ⟨String.ext (List.reverse_injective hh), ?_⟩
  exact nat_repr_injective (String.ext (List.reverse_injective hs))

/-- C2 as stated is false on the code: with pairwise-distinct numbers 1, 2,
3, a PR whose unique head branch name is literally a-2 receives the same
branch name as PR number 2 whose duplicated head branch name is a. -/
theorem C2_counterexample :
    (([c2a, c2b, c2c]).map (fun p => p.number)).Nodup ∧
    ¬ (([c2a, c2b, c2c]).map (fun p => get_branch_name p [c2a, c2b, c2c])).Nodup := by
  decide

/-- C2 amended: branch names are pairwise distinct for every upstream list
with pairwise-distinct PR numbers in which no PR's head branch name equals
the disambiguated name (head branch name, dash, number) of a PR whose head
branch name is shared by more than one PR of the list. -/
theorem C2_branch_name_uniqueness (u : List UpstreamPR)
    (hnum : (u.map (fun p => p.number)).Nodup)
    (hsafe : ∀ p ∈ u, ∀ q ∈ u, 1 < head_count u q.headRefName →
      p.headRefName ≠ q.headRefName ++ "-" ++ toString q.number) :
    (u.map (fun p => get_branch_name p u)).Nodup := by
  have hp : List.Pairwise (fun a b : UpstreamPR => a.number ≠ b.number) u :=
    List.pairwise_map.mp hnum
  have goal : List.Pairwise
      (fun a b : UpstreamPR => get_branch_name a u ≠ get_branch_name b u) u := by
    refine List.Pairwise.imp_of_mem ?_ hp
    intro a b ha hb hne heq
    by_cases ca : 1 < head_count u a.headRefName
    · by_cases cb : 1 < head_count u b.headRefName
      · rw [get_branch_name, if_pos ca, get_branch_name, if_pos cb] at heq
        exact hne (tagged_name_inj heq).2
      · rw [get_branch_name, if_pos ca, get_branch_name, if_neg cb] at heq
        exact hsafe b hb a ha ca heq.symm
    · by_cases cb : 1 < head_count u b.headRefName
      · rw [get_branch_name, if_neg ca, get_branch_name, if_pos cb] at heq
        exact hsafe a ha b hb cb heq
      · rw [get_branch_name, if_neg ca, get_branch_name, if_neg cb] at heq
        have hab : a ≠ b := fun hc => hne (by rw [hc])
        refine ca ?_
        rw [head_count]
        apply one_lt_countP_of_mem_ne _ ha hb hab
        · simp
        · simp [heq]
  exact List.pairwise_map.mpr goal

/-- Witness for the amended C2 on spec scenario 2: PRs 42 and 43 share head
feature-x and are assigned the two distinct names feature-x-42 and
feature-x-43. -/
theorem C2_branch_name_uniqueness_witness :
    ([exPR42, exPR43].map (fun p => get_branch_name p [exPR42, exPR43])).Nodup :=
  C2_branch_name_uniqueness [exPR42, exPR43] (by decide) (by decide)

end SyncMirror
